import Mathlib

/-!
Verification development for the HandForge job-orchestration core
(src/handforge/core/orchestrator.py, src/handforge/core/models.py,
src/handforge/util/ffmpeg.py).

The Python code is shallowly embedded as executable Lean definitions:
* path manipulation (os.path.basename / splitext / join / expanduser for
  POSIX) is modelled on the character lists of strings;
* Python floats become rationals (no claim depends on float rounding or on
  the exact textual rendering of a float);
* the filesystem is a finite list of existing paths;
* the two encoder subprocesses are oracles (an environment records whether
  each process started, its exit code and its diagnostic output lines);
* Qt signal emissions become values returned by the model (the terminal
  sig_done payload, the list of spawned commands, the progress percentages).
Pause/stop requests and wall-clock timing are not exercised by the model:
every run is an ordinary uninterrupted run, which is the regime all the
checked claims quantify over.
-/

namespace HandForge

/-- Case fold used by str.lower(); the repository only feeds ASCII format
names and command tokens through it. -/
def strLower (s : String) : String :=
  String.mk (s.data.map Char.toLower)

/-- str.strip() on a line (whitespace at both ends). -/
def strTrim (s : String) : String :=
  String.mk ((s.data.dropWhile Char.isWhitespace).reverse.dropWhile Char.isWhitespace |>.reverse)

/-- Boolean prefix test on character lists. -/
def charsPrefix : List Char → List Char → Bool
  | [], _ => true
  | _ :: _, [] => false
  | a :: as, b :: bs => a = b && charsPrefix as bs

/-- Boolean infix test on character lists. -/
def charsInfix (needle : List Char) : List Char → Bool
  | [] => charsPrefix needle []
  | c :: cs => charsPrefix needle (c :: cs) || charsInfix needle cs

/-- Python substring test (needle in haystack). -/
def strContainsSub (hay needle : String) : Bool :=
  charsInfix needle.data hay.data

/-- Python str.endswith. -/
def strEndsWith (s suffix : String) : Bool :=
  charsPrefix suffix.data.reverse s.data.reverse

/-- Python str.startswith. -/
def strStartsWithP (s pre : String) : Bool :=
  charsPrefix pre.data s.data

/-- Python slicing s[:n] (by characters). -/
def strTake (s : String) (n : Nat) : String :=
  String.mk (s.data.take n)

/-- Python slicing s[-n:] (by characters). -/
def strTakeRight (s : String) (n : Nat) : String :=
  String.mk (s.data.drop (s.data.length - n))

/-- Number of characters, matching Python len() for the ASCII data involved. -/
def strLen (s : String) : Nat := s.data.length

/-- Split a character list at a separator character. -/
def splitCharsOn (sep : Char) : List Char → List (List Char)
  | [] => [[]]
  | c :: cs =>
    let rest := splitCharsOn sep cs
    if c = sep then [] :: rest
    else match rest with
      | [] => [[c]]
      | r :: rs => (c :: r) :: rs

/-- str.splitlines for text without carriage returns (the model builds the
diagnostic text by joining lines with a line feed, so this is exact). -/
def splitlines (s : String) : List String :=
  if s.data = [] then []
  else (splitCharsOn (Char.ofNat 10) s.data).map String.mk

/-- Index of the last occurrence of a character, if any. -/
def lastIndexOfChar (cs : List Char) (c : Char) : Option Nat :=
  (List.range cs.length).foldl
    (fun acc i => if cs.get? i = some c then some i else acc) none

/-- os.path.basename for POSIX paths (text after the last slash). -/
def posixBasename (p : String) : String :=
  match lastIndexOfChar p.data '/' with
  | none => p
  | some i => String.mk (p.data.drop (i + 1))

/-- os.path.dirname for POSIX paths. -/
def posixDirname (p : String) : String :=
  match lastIndexOfChar p.data '/' with
  | none => ""
  | some i =>
    let head := p.data.take (i + 1)
    if head.all (fun c => c = '/') then String.mk head
    else String.mk (head.reverse.dropWhile (fun c => c = '/') |>.reverse)

/-- os.path.splitext for POSIX paths: split at the last dot of the basename
unless every character of the basename before that dot is itself a dot
(CPython genericpath._splitext). -/
def splitext (p : String) : String × String :=
  let cs := p.data
  let sepIdx : Int := match lastIndexOfChar cs '/' with
    | some i => (i : Int)
    | none => -1
  match lastIndexOfChar cs '.' with
  | none => (p, "")
  | some d =>
    if sepIdx < (d : Int) then
      let startIdx : Nat := (sepIdx + 1).toNat
      if ((cs.drop startIdx).take (d - startIdx)).any (fun ch => ch ≠ '.') then
        (String.mk (cs.take d), String.mk (cs.drop d))
      else (p, "")
    else (p, "")

/-- os.path.join for POSIX paths, two components (os.path.join(a, b)). -/
def joinPath (a b : String) : String :=
  if strStartsWithP b ("/") then b
  else if a = "" || strEndsWith a ("/") then a ++ b
  else a ++ ("/") ++ b

/-- os.path.expanduser for POSIX with a given home directory (the ~user form
is not used by the repository). -/
def expanduser (home p : String) : String :=
  if p = "~" then home
  else if strStartsWithP p ("~/") then home ++ String.mk (p.data.drop 1)
  else p

/-- dict.get for string-keyed string tables. -/
def lookupStr (m : List (String × String)) (k : String) : Option String :=
  (m.find? (fun kv => kv.1 = k)).map (fun kv => kv.2)

/-- dict.get for string-keyed integer tables. -/
def lookupNat (m : List (String × Nat)) (k : String) : Option Nat :=
  (m.find? (fun kv => kv.1 = k)).map (fun kv => kv.2)

/-- Textual rendering of the rationals standing in for Python floats.
Python renders 5.0 as 5.0 while the model renders it as 5; no checked claim
depends on these renderings. -/
def pyFloatStr (q : ℚ) : String := toString q

/-- Video extension list of is_video_file (ffmpeg.py). -/
def video_exts : List String :=
  [".mp4", ".mkv", ".avi", ".mov", ".wmv", ".flv", ".webm", ".m4v",
   ".3gp", ".3g2", ".asf", ".rm", ".rmvb", ".vob", ".ogv", ".mts",
   ".m2ts", ".ts", ".divx", ".f4v", ".mxf", ".mpg", ".mpeg", ".m2v"]

/-- is_video_file (ffmpeg.py): extension membership, lowercased. -/
def is_video_file (path : String) : Bool :=
  video_exts.contains (strLower (splitext path).2)

/-- Audio extension list of is_audio_file (ffmpeg.py). -/
def audio_exts : List String :=
  [".mp3", ".aac", ".m4a", ".flac", ".wav", ".ogg", ".opus",
   ".wma", ".ac3", ".eac3", ".ape", ".tta", ".wv", ".mp2",
   ".amr", ".caf", ".au", ".mka", ".aiff"]

/-- is_audio_file (ffmpeg.py). -/
def is_audio_file (path : String) : Bool :=
  audio_exts.contains (strLower (splitext path).2)

/-- Output extension map of out_path (ffmpeg.py). -/
def ext_map : List (String × String) :=
  [("mp3", ".mp3"), ("aac", ".aac"), ("m4a", ".m4a"), ("opus", ".opus"),
   ("ogg", ".ogg"), ("flac", ".flac"), ("wav", ".wav"), ("aiff", ".aiff"),
   ("wma", ".wma"), ("ac3", ".ac3"), ("eac3", ".eac3"), ("ape", ".ape"),
   ("tta", ".tta"), ("wv", ".wv"), ("mp2", ".mp2"), ("amr", ".amr"),
   ("caf", ".caf"), ("au", ".au"), ("mka", ".mka"),
   ("mp4", ".mp4"), ("mkv", ".mkv"), ("avi", ".avi"), ("mov", ".mov"),
   ("wmv", ".wmv"), ("flv", ".flv"), ("webm", ".webm"), ("m4v", ".m4v"),
   ("3gp", ".3gp"), ("ogv", ".ogv")]

/-- out_path (ffmpeg.py): destination path for a converted file. The
os.makedirs side effect is not part of the path computation; expanduser
needs the home directory, passed explicitly. -/
def out_path (home : String) (dst_dir src fmt : String) : String :=
  let dd := expanduser home dst_dir
  let src_basename := posixBasename src
  let src_name := (splitext src_basename).1
  let ext := (lookupStr ext_map (strLower fmt)).getD (("." : String) ++ fmt)
  joinPath dd (src_name ++ ext)

/-- Job (models.py): a complete conversion specification. Field names and
defaults follow the dataclass; Optional[float] becomes Option ℚ. -/
structure Job where
  src : String
  dst_dir : String
  format : String
  mode : String := "CBR"
  bitrate : Option String := none
  vbrq : Option String := none
  sample_rate : Option String := none
  channels : Option String := none
  meta_title : Option String := none
  meta_artist : Option String := none
  meta_album : Option String := none
  meta_year : Option String := none
  meta_genre : Option String := none
  meta_track : Option String := none
  copy_meta : Bool := true
  strip_meta : Bool := false
  prefer_external_cover : Bool := false
  normalize_lufs : Bool := false
  target_lufs : ℚ := -14
  threads : Nat := 1
  custom_args : Option String := none
  video_codec : Option String := none
  video_bitrate : Option String := none
  video_quality : Option String := none
  resolution : Option String := none
  fps : Option String := none
  extract_audio_only : Bool := false
  reduce_size : Bool := false
  size_reduction_factor : Option ℚ := none
  use_hevc : Bool := false
  two_pass : Bool := false
  subtitle_track : Option Int := none
  trim_start : Option ℚ := none
  trim_end : Option ℚ := none
  fade_in : Option ℚ := none
  fade_out : Option ℚ := none
  video_trim_start : Option ℚ := none
  video_trim_end : Option ℚ := none
  crop_x : Option Int := none
  crop_y : Option Int := none
  crop_width : Option Int := none
  crop_height : Option Int := none
  video_quality_preset : Option String := none
  audio_track : Option Int := none
  delete_original : Bool := false
deriving DecidableEq

/-- Python truthiness of an optional string (None and the empty string are
falsy). -/
def truthyS : Option String → Bool
  | none => false
  | some s => !(s = "")

/-- Python truthiness of an optional float (None and 0.0 are falsy). -/
def truthyQ : Option ℚ → Bool
  | none => false
  | some q => !(q = 0)

/-- Python truthiness of an optional int (None and 0 are falsy). -/
def truthyI : Option Int → Bool
  | none => false
  | some i => !(i = 0)

/-- Arguments of build_ffmpeg_cmd (ffmpeg.py), with the Python defaults. -/
structure BuildArgs where
  src : String
  dst : String
  fmt : String
  mode : String := "CBR"
  bitrate : Option String := none
  vbrq : Option String := none
  sample_rate : Option String := none
  channels : Option String := none
  metadata : List (String × Option String) := []
  copy_meta : Bool := true
  strip_meta : Bool := false
  prefer_external_cover : Bool := false
  normalize_lufs : Bool := false
  target_lufs : ℚ := -14
  threads : Nat := 1
  custom_args : Option String := none
  video_codec : Option String := none
  video_bitrate : Option String := none
  video_quality : Option String := none
  resolution : Option String := none
  fps : Option String := none
  extract_audio_only : Bool := false
  reduce_size : Bool := false
  size_reduction_factor : Option ℚ := none
  use_hevc : Bool := false
  two_pass : Bool := false
  subtitle_track : Option Int := none
  trim_start : Option ℚ := none
  trim_end : Option ℚ := none
  fade_in : Option ℚ := none
  fade_out : Option ℚ := none
  video_trim_start : Option ℚ := none
  video_trim_end : Option ℚ := none
  crop_x : Option Int := none
  crop_y : Option Int := none
  crop_width : Option Int := none
  crop_height : Option Int := none
  video_quality_preset : Option String := none
  audio_track : Option Int := none
deriving DecidableEq

/-- Audio codec table shared by the extraction and audio-to-audio branches
of build_ffmpeg_cmd. -/
def audio_codec_map : List (String × String) :=
  [("mp3", "libmp3lame"), ("aac", "aac"), ("m4a", "aac"), ("opus", "libopus"),
   ("ogg", "libvorbis"), ("flac", "flac"), ("wav", "pcm_s16le"),
   ("aiff", "pcm_s16be"), ("wma", "wmav2"), ("ac3", "ac3"), ("eac3", "eac3"),
   ("ape", "ape"), ("tta", "tta"), ("wv", "wavpack"), ("mp2", "mp2"),
   ("amr", "amr_nb"), ("caf", "pcm_s16be"), ("au", "pcm_s16be"),
   ("mka", "copy")]

/-- Video codec table of the video branch of build_ffmpeg_cmd. -/
def video_codec_map : List (String × String) :=
  [("mp4", "libx264"), ("mkv", "libx264"), ("webm", "libvpx-vp9"),
   ("avi", "libx264"), ("mov", "libx264"), ("wmv", "wmv2"),
   ("flv", "libx264"), ("m4v", "libx264"), ("3gp", "libx264"),
   ("ogv", "libtheora")]

/-- Audio codec table for video destinations in build_ffmpeg_cmd. -/
def video_audio_codec_map : List (String × String) :=
  [("mp4", "aac"), ("mkv", "aac"), ("webm", "libopus"), ("avi", "aac"),
   ("mov", "aac"), ("wmv", "wmav2"), ("flv", "aac"), ("m4v", "aac"),
   ("3gp", "aac"), ("ogv", "libvorbis")]

/-- Container format table used when the destination is a null device. -/
def null_format_map : List (String × String) :=
  [("mp4", "mp4"), ("mkv", "matroska"), ("webm", "webm"), ("avi", "avi"),
   ("mov", "mov"), ("wmv", "asf"), ("flv", "flv"), ("m4v", "mp4"),
   ("3gp", "3gp"), ("ogv", "ogg"), ("mp3", "mp3"), ("aac", "adts"),
   ("m4a", "mp4"), ("flac", "flac"), ("wav", "wav"), ("ogg", "ogg"),
   ("opus", "ogg")]

/-- Quality preset table (video_quality_preset handling): preset name to
(crf, preset) pair. -/
def quality_map : List (String × String × String) :=
  [("low", "32", "fast"), ("medium", "28", "medium"),
   ("high", "23", "slow"), ("ultra", "18", "veryslow")]

/-- list.index (first occurrence; callers guard with contains, mirroring the
try/except around the Python call). -/
def idxOfStr (l : List String) (x : String) : Nat :=
  l.findIdx (fun y => y = x)

/-- list.insert(i, x); Python clamps an out-of-range index. -/
def insertAt (l : List String) (i : Nat) (x : String) : List String :=
  l.take i ++ [x] ++ l.drop i

/-- The two cmd.pop(idx) calls removing a flag and its value after an
if-flag-in-cmd check (video_quality_preset handling). -/
def removeFlagPair (flag : String) (cmd : List String) : List String :=
  if cmd.contains flag then
    let i := idxOfStr cmd flag
    (cmd.eraseIdx i).eraseIdx i
  else cmd

/-- The repeated merge-into-existing-filter pattern: append to the value of
an existing -vf argument, or add a fresh -vf pair. -/
def appendVf (filt : String) (cmd : List String) : List String :=
  if cmd.contains ("-vf") then
    let i := idxOfStr cmd ("-vf")
    cmd.set (i + 1) (((cmd.get? (i + 1)).getD ("")) ++ ("," : String) ++ filt)
  else cmd ++ ["-vf", filt]

/-- shlex.split modelled as whitespace tokenization (no checked claim
involves quoted custom arguments). -/
def shlexSplit (s : String) : List String :=
  ((splitCharsOn ' ' s.data).filter (fun w => w ≠ [])).map String.mk

/-- Lines 233 to 243 of ffmpeg.py: the executable, the fast-seek video trim
before -i, the input, and the duration limit after -i. -/
def buildHead (ffmpeg : String) (a : BuildArgs) : List String :=
  let cmd := [ffmpeg]
  let cmd := match a.video_trim_start with
    | some vts => cmd ++ ["-ss", pyFloatStr vts]
    | none => cmd
  let cmd := cmd ++ ["-i", a.src]
  match a.video_trim_end, a.video_trim_start with
  | some vte, some vts => cmd ++ ["-t", pyFloatStr (vte - vts)]
  | some vte, none => cmd ++ ["-t", pyFloatStr vte]
  | none, _ => cmd

/-- Audio trimming block shared by the extraction and audio-to-audio
branches (-ss and optional -t after the codec arguments). -/
def audioTrimArgs (a : BuildArgs) (cmd : List String) : List String :=
  if a.trim_start.isSome || a.trim_end.isSome then
    let start := a.trim_start.getD 0
    match a.trim_end with
    | some te => cmd ++ ["-ss", pyFloatStr start, "-t", pyFloatStr (te - start)]
    | none => cmd ++ ["-ss", pyFloatStr start]
  else cmd

/-- Audio filter chain (fade in, fade out, loudness normalization) shared by
the extraction and audio-to-audio branches. -/
def audioFilterArgs (a : BuildArgs) (cmd : List String) : List String :=
  let audio_filters : List String :=
    (if truthyQ a.fade_in then
      [("afade=t=in:ss=0:d=" : String) ++ pyFloatStr (a.fade_in.getD 0)] else [])
    ++ (if truthyQ a.fade_out then
      [("afade=t=out:st=0:d=" : String) ++ pyFloatStr (a.fade_out.getD 0)] else [])
    ++ (if a.normalize_lufs then
      [("loudnorm=I=" : String) ++ pyFloatStr a.target_lufs ++ (":TP=-1.5:LRA=11" : String)] else [])
  if !audio_filters.isEmpty then
    cmd ++ ["-af", String.intercalate (",") audio_filters]
  else cmd

/-- Sample rate and channel overrides (truthiness of the option strings). -/
def srChannelArgs (a : BuildArgs) (cmd : List String) : List String :=
  let cmd := if truthyS a.sample_rate then cmd ++ ["-ar", a.sample_rate.getD ("")] else cmd
  if truthyS a.channels then cmd ++ ["-ac", a.channels.getD ("")] else cmd

/-- The video-to-audio extraction branch of build_ffmpeg_cmd (lines 246 to
323): drop video, pick the audio codec, encoding-mode arguments, overrides,
trim, filters. -/
def audioExtractBranch (a : BuildArgs) (cmd : List String) : List String :=
  let cmd := cmd ++ ["-vn"]
  let codec := (lookupStr audio_codec_map (strLower a.fmt)).getD ("copy")
  let cmd := cmd ++ ["-c:a", codec]
  let f := strLower a.fmt
  let cmd :=
    if a.mode = "CBR" && truthyS a.bitrate then
      cmd ++ ["-b:a", a.bitrate.getD ("") ++ ("k" : String)]
    else if a.mode = "VBR" && truthyS a.vbrq then
      if f = "mp3" then cmd ++ ["-q:a", a.vbrq.getD ("")]
      else if f = "aac" || f = "m4a" then cmd ++ ["-q:a", a.vbrq.getD ("")]
      else if f = "opus" then
        cmd ++ ["-b:a", "0", "-vbr", "on", "-compression_level", a.vbrq.getD ("")]
      else if f = "ogg" then cmd ++ ["-q:a", a.vbrq.getD ("")]
      else cmd
    else if a.mode = "Lossless" then
      if f = "flac" then cmd ++ ["-compression_level", "12"] else cmd
    else cmd
  let cmd := srChannelArgs a cmd
  let cmd := audioTrimArgs a cmd
  audioFilterArgs a cmd

/-- The audio-to-audio branch of build_ffmpeg_cmd (lines 513 to 594): same
audio logic without the stream drop; CBR bitrate only for the formats listed
in its per-format chain. -/
def audioToAudioBranch (a : BuildArgs) (cmd : List String) : List String :=
  let codec := (lookupStr audio_codec_map (strLower a.fmt)).getD ("copy")
  let cmd := cmd ++ ["-c:a", codec]
  let f := strLower a.fmt
  let cmd :=
    if a.mode = "CBR" && truthyS a.bitrate then
      if f = "mp3" || f = "aac" || f = "m4a" then
        cmd ++ ["-b:a", a.bitrate.getD ("") ++ ("k" : String)]
      else if f = "opus" then
        cmd ++ ["-b:a", a.bitrate.getD ("") ++ ("k" : String)]
      else if f = "ogg" then
        cmd ++ ["-b:a", a.bitrate.getD ("") ++ ("k" : String)]
      else cmd
    else if a.mode = "VBR" && truthyS a.vbrq then
      if f = "mp3" then cmd ++ ["-q:a", a.vbrq.getD ("")]
      else if f = "aac" || f = "m4a" then cmd ++ ["-q:a", a.vbrq.getD ("")]
      else if f = "opus" then
        cmd ++ ["-b:a", "0", "-vbr", "on", "-compression_level", a.vbrq.getD ("")]
      else if f = "ogg" then cmd ++ ["-q:a", a.vbrq.getD ("")]
      else cmd
    else if a.mode = "Lossless" then
      if f = "flac" then cmd ++ ["-compression_level", "12"] else cmd
    else cmd
  let cmd := srChannelArgs a cmd
  let cmd := audioTrimArgs a cmd
  audioFilterArgs a cmd

/-- Video codec selection of the video branch (lines 341 to 353). -/
def pickVcodec (a : BuildArgs) : String :=
  if a.reduce_size && a.use_hevc then
    if ["mp4", "mkv", "m4v"].contains (strLower a.fmt) then "libx265" else "libx264"
  else if truthyS a.video_codec then a.video_codec.getD ("")
  else (lookupStr video_codec_map (strLower a.fmt)).getD ("libx264")

/-- The video-to-video branch of build_ffmpeg_cmd (lines 325 to 511). -/
def videoBranch (a : BuildArgs) (cmd : List String) : List String :=
  let vcodec := pickVcodec a
  let cmd := cmd ++ ["-c:v", vcodec]
  let f := strLower a.fmt
  let audio_map := match a.audio_track with
    | some t => if 0 ≤ t then ("0:a:" : String) ++ toString t else "0:a:0"
    | none => "0:a:0"
  let cmd := match a.subtitle_track with
    | some stk =>
      if 0 ≤ stk then
        let c := cmd ++ ["-map", "0:v:0", "-map", audio_map, "-map",
          ("0:" : String) ++ toString stk]
        if f = "mp4" || f = "m4v" then c ++ ["-c:s", "mov_text"]
        else if f = "mkv" then c ++ ["-c:s", "copy"]
        else c ++ ["-c:s", "mov_text"]
      else cmd ++ ["-map", "0:v:0", "-map", audio_map]
    | none => cmd ++ ["-map", "0:v:0", "-map", audio_map]
  let cmd :=
    if a.reduce_size then
      let crf_value :=
        if truthyQ a.size_reduction_factor then
          let fct := a.size_reduction_factor.getD 0
          if 8 ≤ fct then "30" else if 5 ≤ fct then "28" else "26"
        else "28"
      if vcodec = "libx264" || vcodec = "libx265" then
        let c := cmd ++ ["-preset", "slow"]
        if a.two_pass then
          let pass_logfile := a.dst ++ (".ffmpeg2pass" : String)
          c ++ ["-pass", "1"] ++ ["-passlogfile", pass_logfile]
        else c ++ ["-crf", crf_value]
      else if vcodec = "libvpx-vp9" then cmd ++ ["-crf", crf_value, "-b:v", "0"]
      else cmd
    else
      if truthyS a.video_bitrate then
        cmd ++ ["-b:v", a.video_bitrate.getD ("") ++ ("k" : String)]
      else if truthyS a.video_quality then
        if vcodec = "libx264" || vcodec = "libx265" then
          cmd ++ ["-crf", a.video_quality.getD ("")]
        else if vcodec = "libvpx-vp9" then
          cmd ++ ["-crf", a.video_quality.getD (""), "-b:v", "0"]
        else cmd
      else cmd
  let cmd :=
    if truthyS a.video_quality_preset && !a.reduce_size then
      match quality_map.find? (fun e => e.1 = strLower (a.video_quality_preset.getD (""))) with
      | some e =>
        if vcodec = "libx264" || vcodec = "libx265" then
          let c := removeFlagPair ("-crf") cmd
          let c := removeFlagPair ("-preset") c
          c ++ ["-crf", e.2.1, "-preset", e.2.2]
        else if vcodec = "libvpx-vp9" then
          let c := removeFlagPair ("-crf") cmd
          c ++ ["-crf", e.2.1, "-b:v", "0"]
        else cmd
      | none => cmd
    else cmd
  let cmd :=
    if truthyI a.crop_width && truthyI a.crop_height then
      let base := ("crop=" : String) ++ toString (a.crop_width.getD 0)
        ++ (":" : String) ++ toString (a.crop_height.getD 0)
      let crop_filter := match a.crop_x, a.crop_y with
        | some cx, some cy =>
          base ++ (":" : String) ++ toString cx ++ (":" : String) ++ toString cy
        | _, _ => base
      appendVf crop_filter cmd
    else cmd
  let cmd :=
    if truthyS a.resolution then
      appendVf (("scale=" : String)
        ++ String.mk ((a.resolution.getD ("")).data.map (fun c => if c = 'x' then ':' else c))) cmd
    else cmd
  let cmd := if truthyS a.fps then cmd ++ ["-r", a.fps.getD ("")] else cmd
  let acodec := (lookupStr video_audio_codec_map f).getD ("aac")
  let cmd := cmd ++ ["-c:a", acodec]
  let cmd :=
    if truthyS a.bitrate then cmd ++ ["-b:a", a.bitrate.getD ("") ++ ("k" : String)]
    else if !truthyS a.bitrate && acodec = "aac" then cmd ++ ["-b:a", "192k"]
    else cmd
  let cmd := srChannelArgs a cmd
  if (vcodec = "libx264" || vcodec = "libx265") && !a.reduce_size then
    cmd ++ ["-preset", "medium"]
  else cmd

/-- find_external_cover (ffmpeg.py): first conventional cover file beside
the source that exists on the filesystem fs. -/
def find_external_cover (fs : List String) (src : String) : Option String :=
  let dir := posixDirname src
  (["cover.jpg", "folder.jpg", "cover.png", "folder.png", "cover.jpeg",
    "folder.jpeg"].map (fun name => joinPath dir name)).find? (fun p => fs.contains p)

/-- Metadata stage of build_ffmpeg_cmd (lines 596 to 605). The metadata
argument is an association list in the insertion order of the Python dict;
only truthy values are emitted. -/
def metadataStage (a : BuildArgs) (cmd : List String) : List String :=
  if !a.strip_meta then
    let c := if a.copy_meta then cmd ++ ["-map_metadata", "0"] else cmd
    if !a.metadata.isEmpty then
      a.metadata.foldl (fun acc kv =>
        if truthyS kv.2 then
          acc ++ ["-metadata", kv.1 ++ ("=" : String) ++ (kv.2.getD (""))]
        else acc) c
    else c
  else cmd

/-- build_ffmpeg_cmd (ffmpeg.py). The located encoder binary and the
filesystem (for the external cover lookup) are explicit parameters; a
missing binary raises before any of this runs and is handled by the worker
model separately. -/
def build_ffmpeg_cmd (ffmpeg : String) (fs : List String) (a : BuildArgs) : List String :=
  let src_is_video := is_video_file a.src
  let dst_is_video :=
    if a.dst = "NUL" || a.dst = "/dev/null" then src_is_video
    else is_video_file a.dst
  let cmd := buildHead ffmpeg a
  let cmd :=
    if a.extract_audio_only || (src_is_video && !dst_is_video) then
      audioExtractBranch a cmd
    else if dst_is_video then videoBranch a cmd
    else audioToAudioBranch a cmd
  let cmd := metadataStage a cmd
  let cmd :=
    if !dst_is_video && a.prefer_external_cover then
      match find_external_cover fs a.src with
      | some cover_path =>
        if fs.contains cover_path then
          cmd ++ ["-i", cover_path, "-map", "0", "-map", "1", "-c:v", "copy",
            "-disposition:v", "attached_pic"]
        else cmd
      | none => cmd
    else cmd
  let cmd := if 1 < a.threads then cmd ++ ["-threads", toString a.threads] else cmd
  let cmd :=
    if truthyS a.custom_args then cmd ++ shlexSplit (a.custom_args.getD (""))
    else cmd
  let cmd :=
    if a.dst = "NUL" || a.dst = "/dev/null" then
      cmd ++ ["-f", (lookupStr null_format_map (strLower a.fmt)).getD (strLower a.fmt)]
    else cmd
  cmd ++ ["-y", a.dst]

/-- The settings snapshot consumed by the orchestration core: duplicate
policy (settings.get with default overwrite) and per-format thread counts
(settings.get codec_threads). -/
structure Settings where
  on_exists : Option String := none
  codec_threads : List (String × Nat) := []
deriving DecidableEq

/-- Oracle for everything outside the orchestration core: filesystem
contents at the duplicate checks, whether each encoder process started, its
exit code, its diagnostic lines, and whether the encoder wrote the pass-log
files it was asked for. heartbeat_ran records whether the five-second
liveness loop executed at least once (it binds the local variable elapsed). -/
structure Env where
  windows : Bool := false
  home : String := "/root"
  fs : List String := []
  ffmpeg : String := "ffmpeg"
  proc1_starts : Bool := true
  immediate_exit : Bool := false
  stderr1 : List String := []
  pass1_timeout : Bool := false
  pass1_exit : Int := 0
  proc2_starts : Bool := true
  pass2_exit : Int := 0
  passlog_written : Bool := true
  out_exists : Bool := true
  out_size : Nat := 100000
  heartbeat_ran : Bool := false
deriving DecidableEq

/-- The platform null sink for the first pass of two-pass encoding. -/
def nullSink (windows : Bool) : String :=
  if windows then "NUL" else "/dev/null"

/-- Candidate built by the rename loop: base followed by a parenthesized
counter and the extension. -/
def mkRenamed (base : String) (n : Nat) (ext : String) : String :=
  base ++ (" (" : String) ++ toString n ++ (")" : String) ++ ext

/-- The rename while-loop of Worker.run (lines 86 to 90): while the current
candidate exists, move to the next counter. Fuel bounds the iteration count;
renameDst supplies more fuel than the filesystem has entries, which is
enough whenever some candidate is free. -/
def renameLoop (fs : List String) (base ext : String) : String → Nat → Nat → String
  | dst, _, 0 => dst
  | dst, counter, fuel + 1 =>
    if fs.contains dst then
      renameLoop fs base ext (mkRenamed base counter ext) (counter + 1) fuel
    else dst

/-- Duplicate-policy rename resolution of Worker.run. -/
def renameDst (fs : List String) (dst : String) : String :=
  let be := splitext dst
  renameLoop fs be.1 be.2 dst 1 (fs.length + 1)

/-- Destination resolution after the skip check: rename when the path
exists under policy rename, otherwise keep the computed path. -/
def resolveDst (fs : List String) (on_exists_policy : String) (dst : String) : String :=
  if fs.contains dst && on_exists_policy = "rename" then renameDst fs dst else dst

/-- Keyword filter used by the failure classifier at lines 498: lines that
are nonblank and mention error or failed, case-insensitively. -/
def isErrorLine (l : String) : Bool :=
  !(strTrim l = "") &&
    (strContainsSub (strLower l) ("error") || strContainsSub (strLower l) ("failed"))

/-- Lines 493 to 504 of orchestrator.py: failure message from the exit code
and whatever stderr text the final read returned. -/
def classifyFailure (return_code : Int) (stderr_text : String) : String :=
  let default_msg := ("Conversion failed with exit code " : String) ++ toString return_code
  if stderr_text = "" then default_msg
  else
    let error_lines := (splitlines stderr_text).filter isErrorLine
    match error_lines.getLast? with
    | some l => strTake l 200
    | none =>
      if 200 < strLen stderr_text then strTakeRight stderr_text 200 else stderr_text

/-- Keyword filter of the immediate-exit branch (line 179): error, failed or
invalid. -/
def isImmediateErrorLine (l : String) : Bool :=
  !(strTrim l = "") &&
    (strContainsSub (strLower l) ("error") || strContainsSub (strLower l) ("failed")
      || strContainsSub (strLower l) ("invalid"))

/-- Lines 174 to 186 of orchestrator.py: message when the encoder process
exits within the startup check window; here the whole stream is still
unread, so the classification does see the diagnostic text. -/
def immediateExitMsg (stderrLines : List String) : String :=
  let error_text := String.intercalate ("\n") stderrLines
  if error_text = "" then "FFmpeg process exited immediately"
  else
    let error_lines := (splitlines error_text).filter isImmediateErrorLine
    match error_lines.getLast? with
    | some l => strTake l 300
    | none =>
      let ls := splitlines error_text
      if !ls.isEmpty then
        strTake (String.intercalate ("\n") (ls.drop (ls.length - 3))) 300
      else "FFmpeg process exited immediately"

/-- The keyword-argument list Worker.run passes to build_ffmpeg_cmd (lines
102 to 148), with dst the possibly null-sink first-pass destination. -/
def buildArgsOfJob (j : Job) (dst : String) : BuildArgs :=
  { src := j.src, dst := dst, fmt := j.format, mode := j.mode,
    bitrate := j.bitrate, vbrq := j.vbrq, sample_rate := j.sample_rate,
    channels := j.channels,
    metadata :=
      if !j.strip_meta then
        [("title", j.meta_title), ("artist", j.meta_artist),
         ("album", j.meta_album), ("year", j.meta_year),
         ("genre", j.meta_genre), ("track", j.meta_track)]
      else [],
    copy_meta := j.copy_meta && !j.strip_meta,
    prefer_external_cover := j.prefer_external_cover,
    normalize_lufs := j.normalize_lufs, target_lufs := j.target_lufs,
    threads := j.threads, custom_args := j.custom_args,
    video_codec := j.video_codec, video_bitrate := j.video_bitrate,
    video_quality := j.video_quality, resolution := j.resolution,
    fps := j.fps, extract_audio_only := j.extract_audio_only,
    reduce_size := j.reduce_size,
    size_reduction_factor := j.size_reduction_factor,
    use_hevc := j.use_hevc, two_pass := j.two_pass,
    subtitle_track := j.subtitle_track, trim_start := j.trim_start,
    trim_end := j.trim_end, fade_in := j.fade_in, fade_out := j.fade_out,
    video_trim_start := j.video_trim_start, video_trim_end := j.video_trim_end,
    crop_x := j.crop_x, crop_y := j.crop_y, crop_width := j.crop_width,
    crop_height := j.crop_height,
    video_quality_preset := j.video_quality_preset,
    audio_track := j.audio_track }

/-- The reduced argument list of the second-pass fallback rebuild (lines 356
to 389): real destination, two_pass false, and none of the subtitle, trim,
fade, crop, preset or track-selection arguments. -/
def secondPassArgs (j : Job) (dst : String) : BuildArgs :=
  { src := j.src, dst := dst, fmt := j.format, mode := j.mode,
    bitrate := j.bitrate, vbrq := j.vbrq, sample_rate := j.sample_rate,
    channels := j.channels,
    metadata :=
      if !j.strip_meta then
        [("title", j.meta_title), ("artist", j.meta_artist),
         ("album", j.meta_album), ("year", j.meta_year),
         ("genre", j.meta_genre), ("track", j.meta_track)]
      else [],
    copy_meta := j.copy_meta && !j.strip_meta,
    prefer_external_cover := j.prefer_external_cover,
    normalize_lufs := j.normalize_lufs, target_lufs := j.target_lufs,
    threads := j.threads, custom_args := j.custom_args,
    video_codec := j.video_codec, video_bitrate := j.video_bitrate,
    video_quality := j.video_quality, resolution := j.resolution,
    fps := j.fps, extract_audio_only := j.extract_audio_only,
    reduce_size := j.reduce_size,
    size_reduction_factor := j.size_reduction_factor,
    use_hevc := j.use_hevc, two_pass := false }

/-- Lines 348 to 401 of orchestrator.py: the second-pass command, by
patching the first-pass command in place when it carries a -pass argument,
else by rebuilding and inserting the pass-two bookkeeping arguments. -/
def secondPassCmd (ffmpeg : String) (fs : List String) (j : Job)
    (cmd : List String) (first_pass_dst dst : String) : List String :=
  let fallback :=
    let c := build_ffmpeg_cmd ffmpeg fs (secondPassArgs j dst)
    if c.contains ("-passlogfile") then
      let i := idxOfStr c ("-passlogfile")
      insertAt (insertAt c (i + 2) ("2")) (i + 2) ("-pass")
    else
      let pass_logfile := dst ++ (".ffmpeg2pass" : String)
      let o := idxOfStr c dst
      insertAt (insertAt (insertAt (insertAt c (o - 1) pass_logfile)
        (o - 1) ("-passlogfile")) (o - 1) ("2")) (o - 1) ("-pass")
  if cmd.contains ("-pass") then
    let c1 := cmd.set (idxOfStr cmd ("-pass") + 1) ("2")
    if c1.contains first_pass_dst then
      c1.set (idxOfStr c1 first_pass_dst) dst
    else fallback
  else fallback

/-- A single quote character, kept out of string literals. -/
def sq : String := String.mk [Char.ofNat 39]

/-- str(e) for the NameError raised by the final-progress emissions at lines
429 to 431 and 464 to 467: speed_str is assigned only inside the nested
read_stderr function, so the name is unbound in the scope of run
(CPython text of the NameError). -/
def nameErrorSpeedStrMsg : String :=
  ("name " : String) ++ sq ++ ("speed_str" : String) ++ sq ++ (" is not defined" : String)

/-- str(e) for the UnboundLocalError raised at line 466 when the heartbeat
loop never assigned elapsed (CPython 3.10 wording; later versions phrase it
differently, and no claim hangs on the exact words). -/
def unboundLocalElapsedMsg : String :=
  ("local variable " : String) ++ sq ++ ("elapsed" : String) ++ sq
    ++ (" referenced before assignment" : String)

/-- Lines 463 to 491 of orchestrator.py as written: the success-path
finalization (output existence and minimum-size checks, optional source
deletion). In an actual run the progress emission preceding these checks
raises first, so this code is unreachable; it is modelled standalone to
state what it would decide. -/
def finalizeSuccess (dst : String) (out_exists : Bool) (out_size : Nat)
    (delete_original src_still_exists delete_ok : Bool) (delete_err : String) :
    Bool × String × String :=
  if !out_exists then
    (false, ("Conversion completed but output file not found: " : String) ++ dst, "")
  else if out_size < 1024 then
    (false, ("Output file is too small (" : String) ++ toString out_size
      ++ (" bytes) - conversion may have failed" : String), dst)
  else if delete_original && src_still_exists then
    if delete_ok then
      (true, ("Conversion completed, original file deleted\nSaved to: " : String) ++ dst, dst)
    else
      (true, ("Conversion completed, but failed to delete original: " : String)
        ++ delete_err ++ ("\nSaved to: " : String) ++ dst, dst)
  else
    (true, ("Conversion completed successfully\nSaved to: " : String) ++ dst, dst)

/-- Outcome of one Worker.run: the terminal sig_done payload, the encoder
invocations that actually started (in order), and whether pass-log files
written by the encoder are still on disk at the end. -/
structure WorkerResult where
  success : Bool
  message : String
  output : String
  spawned : List (List String)
  passlogOnDisk : Bool
deriving DecidableEq

/-- Worker.run (orchestrator.py lines 58 to 508) for an uninterrupted run
(no pause or stop request, no one-hour timeout unless the oracle says so).
Deterministic consequences of the code that the model preserves:
* the dedicated reader thread consumes the whole diagnostic stream before
  the terminal classification, so the later stderr reads at lines 452 and
  495 return empty text;
* the final-progress emissions at lines 429 to 431 and 464 to 467 read
  names that are unbound in the scope of run (speed_str always, elapsed
  unless the heartbeat loop ran), raising a NameError that the outer
  handler turns into a failure event, before the output checks and before
  the pass-log cleanup at lines 433 to 442. -/
def workerRun (j : Job) (s : Settings) (e : Env) : WorkerResult :=
  if !(e.fs.contains j.src) then
    ⟨false, ("Source file not found: " : String) ++ j.src, "", [], false⟩
  else
    let dst0 := out_path e.home j.dst_dir j.src j.format
    let on_exists_policy := s.on_exists.getD ("overwrite")
    if e.fs.contains dst0 && on_exists_policy = "skip" then
      ⟨true, "Skipped (file exists)", dst0, [], false⟩
    else
      let dst := resolveDst e.fs on_exists_policy dst0
      let two_pass_gate := j.two_pass && j.reduce_size && !j.extract_audio_only
      let first_pass_dst := if two_pass_gate then nullSink e.windows else dst
      let cmd := build_ffmpeg_cmd e.ffmpeg e.fs (buildArgsOfJob j first_pass_dst)
      if !e.proc1_starts then
        ⟨false, "Failed to start FFmpeg - check if FFmpeg is installed and on PATH",
          "", [], false⟩
      else
        let logs := cmd.contains ("-passlogfile") && e.passlog_written
        if e.immediate_exit then
          ⟨false, immediateExitMsg e.stderr1, "", [cmd], logs⟩
        else if e.pass1_timeout then
          ⟨false, "Conversion timed out after 1 hour", "", [cmd], logs⟩
        else
          let return_code := e.pass1_exit
          if two_pass_gate && return_code = 0 then
            let cmd2 := secondPassCmd e.ffmpeg e.fs j cmd first_pass_dst dst
            if e.proc2_starts then
              ⟨false, ("Error: " : String) ++ nameErrorSpeedStrMsg, "", [cmd, cmd2], logs⟩
            else
              ⟨false, classifyFailure 1 (""), "", [cmd], logs⟩
          else if return_code = 0 then
            ⟨false, ("Error: " : String)
              ++ (if e.heartbeat_ran then nameErrorSpeedStrMsg else unboundLocalElapsedMsg),
              "", [cmd], logs⟩
          else
            ⟨false, classifyFailure return_code (""), "", [cmd], logs⟩

/-- Admission-time thread-count assignment (lines 545 to 547): the only Job
mutation the orchestration core performs. -/
def setThreads (s : Settings) (j : Job) : Job :=
  { j with threads := (lookupNat s.codec_threads j.format).getD 1 }

/-- OrchestratorState: active worker map (id and owning job, in admission
order), FIFO pending queue, concurrency bound, id counter, settings. -/
structure OrchState where
  workers : List (Nat × Job)
  job_queue : List Job
  max_parallel : Nat
  next_wid : Nat
  settings : Settings
deriving DecidableEq

/-- The while-loop of Orchestrator._process_queue over the pending queue:
admit heads while the active count is below the bound, assigning fresh ids
and the per-format thread count. Returns the active list, the id counter and
the remaining queue. -/
def processQueueAux (s : Settings) (maxP : Nat) :
    List (Nat × Job) → Nat → List Job → List (Nat × Job) × Nat × List Job
  | ws, wid, [] => (ws, wid, [])
  | ws, wid, jb :: rest =>
    if ws.length < maxP then
      processQueueAux s maxP (ws ++ [(wid, setThreads s jb)]) (wid + 1) rest
    else (ws, wid, jb :: rest)

/-- Orchestrator._process_queue. -/
def processQueue (st : OrchState) : OrchState :=
  let r := processQueueAux st.settings st.max_parallel st.workers st.next_wid st.job_queue
  { st with workers := r.1, next_wid := r.2.1, job_queue := r.2.2 }

/-- Orchestrator.enqueue: extend the pending queue, then admit. -/
def enqueue (jobs : List Job) (st : OrchState) : OrchState :=
  processQueue { st with job_queue := st.job_queue ++ jobs }

/-- Orchestrator._on_worker_done: drop the finished worker from the active
map (the dict delete under the membership check), then re-admit. -/
def onWorkerDone (wid : Nat) (st : OrchState) : OrchState :=
  processQueue { st with workers := st.workers.filter (fun p => p.1 ≠ wid) }

/-- External stimuli of the orchestrator: batch submission and worker
completion. -/
inductive OrchEvent
  | enq (jobs : List Job)
  | done (wid : Nat)

/-- One orchestrator step. -/
def orchStep (st : OrchState) : OrchEvent → OrchState
  | OrchEvent.enq jobs => enqueue jobs st
  | OrchEvent.done wid => onWorkerDone wid st

/-- A whole run of the orchestrator over a stimulus sequence. -/
def runEvents (evs : List OrchEvent) (st : OrchState) : OrchState :=
  evs.foldl orchStep st

/-- The initial orchestrator state (empty queue and active map, first worker
id 1). -/
def initState (s : Settings) (maxP : Nat) : OrchState :=
  ⟨[], [], maxP, 1, s⟩

/-- All jobs submitted over a stimulus sequence. -/
def enqueuedJobs : List OrchEvent → List Job
  | [] => []
  | OrchEvent.enq jobs :: evs => jobs ++ enqueuedJobs evs
  | OrchEvent.done _ :: evs => enqueuedJobs evs

/-- One diagnostic line of the encoder, as seen by the regular expressions
of read_stderr: the optional Duration match, the optional time= match (both
HH, MM, SS, centiseconds) and the optional speed= match. -/
structure StderrLine where
  durationMatch : Option (Nat × Nat × Nat × Nat) := none
  timeMatch : Option (Nat × Nat × Nat × Nat) := none
  speedMatch : Option String := none
deriving DecidableEq

/-- Seconds from a matched HH:MM:SS.cc group. -/
def toSecs (g : Nat × Nat × Nat × Nat) : ℚ :=
  g.1 * 3600 + g.2.1 * 60 + g.2.2.1 + (g.2.2.2 : ℚ) / 100

/-- The progress percentages emitted by read_stderr (lines 243 to 270):
duration is latched from the first duration-bearing line; afterwards every
time= line with a truthy positive duration emits min(99, position over
duration times 100). -/
def parsedAux : Option ℚ → List StderrLine → List ℚ
  | _, [] => []
  | dur, l :: ls =>
    let durN : Option ℚ := match dur with
      | none => (l.durationMatch.map toSecs)
      | some d => some d
    match l.timeMatch, durN with
    | some t, some d =>
      if !(d = 0) then
        if 0 < d then min 99 (toSecs t / d * 100) :: parsedAux durN ls
        else parsedAux durN ls
      else parsedAux durN ls
    | _, _ => parsedAux durN ls

/-- Progress percentages parsed out of a first-pass diagnostic stream. -/
def parsedProgressEvents (lines : List StderrLine) : List ℚ :=
  parsedAux none lines

/-- The time= positions carried by a diagnostic stream. -/
def timesOf (lines : List StderrLine) : List ℚ :=
  (lines.filterMap (fun l => l.timeMatch)).map toSecs

/-- The percentage of the liveness heartbeat emitted by the run loop every
five seconds (line 323): a constant 0.1. -/
def heartbeatPct : ℚ := 1 / 10

/-- The emitted progress sequence of one pass is an arbitrary interleaving
of the parsed percentages (reader thread) with the heartbeat percentages
(run loop); this relation captures every such interleaving. -/
inductive Interleave : List ℚ → List ℚ → List ℚ → Prop
  | nil : Interleave [] [] []
  | left {a : ℚ} {l r o : List ℚ} : Interleave l r o → Interleave (a :: l) r (a :: o)
  | right {b : ℚ} {l r o : List ℚ} : Interleave l r o → Interleave l (b :: r) (b :: o)

/-! Concrete instances used by the claim evaluations. -/

/-- A diagnostic stream declaring a ten-second duration, then a position of
five seconds. -/
def c2_lines : List StderrLine :=
  [{ durationMatch := some (0, 0, 10, 0) }, { timeMatch := some (0, 0, 5, 0) }]

/-- A monotone diagnostic stream: duration ten seconds, positions two then
five seconds. -/
def c2w_lines : List StderrLine :=
  [{ durationMatch := some (0, 0, 10, 0) }, { timeMatch := some (0, 0, 2, 0) },
   { timeMatch := some (0, 0, 5, 0) }]

/-- A two-pass size-reduction video job. -/
def c3_job : Job :=
  { src := "/in/movie.mkv", dst_dir := "/out", format := "mp4",
    two_pass := true, reduce_size := true }

/-- Oracle for a fully successful two-pass run (both passes exit 0,
pass-log files written). -/
def c3_env : Env := { fs := ["/in/movie.mkv"], heartbeat_ran := true }

/-- Oracle for a two-pass run whose first pass exits with code 1. -/
def c3_env_fail : Env := { fs := ["/in/movie.mkv"], pass1_exit := 1 }

/-- A plain audio conversion job. -/
def c4_job : Job :=
  { src := "/in/a.flac", dst_dir := "/out", format := "mp3", bitrate := some "192" }

/-- Oracle: the encoder runs past the startup check, exits with code 1, and
its diagnostic output ends with an Error while decoding line. -/
def c4_env : Env :=
  { fs := ["/in/a.flac"], pass1_exit := 1,
    stderr1 := ["Input #0, flac, from /in/a.flac", "Error while decoding"] }

/-- Oracle: the encoder exits with code 0 but leaves a 512-byte output; the
heartbeat loop ran at least once. -/
def c5_env : Env :=
  { fs := ["/in/a.flac"], out_size := 512, heartbeat_ran := true }

/-- Oracle: the encoder exits with code 0 but the output file is missing. -/
def c5_env_missing : Env :=
  { fs := ["/in/a.flac"], out_exists := false, heartbeat_ran := true }

/-- Oracle for the skip-policy scenario: source and computed destination
both exist. -/
def c7_env : Env := { fs := ["/in/a.flac", "/out/a.mp3"] }

/-- A job used for the orchestrator witnesses. -/
def c1_job : Job := { src := "/in/x.wav", dst_dir := "/out", format := "flac" }

/-- A second job for the orchestrator witnesses. -/
def c1_job2 : Job := { src := "/in/y.wav", dst_dir := "/out", format := "mp3" }

/-- A saturated orchestrator state: bound one, one active worker, one
pending job. -/
def c1_state : OrchState := ⟨[(1, c1_job)], [c1_job2], 1, 2, {}⟩

/-- A job with two_pass set but reduce_size unset. -/
def c10_job : Job :=
  { src := "/in/movie.mkv", dst_dir := "/out", format := "mp4", two_pass := true }

/-- Oracle for the single-pass gating witness. -/
def c10_env : Env := { fs := ["/in/movie.mkv"] }

/-! Theorems. -/

/-- C3: for a two-pass size-reduction job, the first-pass destination is
the null sink, and a successful first pass does yield exactly two encoder
invocations; but the claim that no pass-log artifact remains after any
terminal outcome fails on the code. On a fully successful two-pass run the
final-progress emission at lines 429 to 431 raises a NameError (speed_str
is local to the nested reader), the outer handler reports failure, and the
pass-log cleanup at lines 433 to 442 is skipped, so the files written by
the encoder remain; when the first pass fails there is a single invocation
and the cleanup is equally unreachable. -/
theorem two_pass_passlog_remains :
    (workerRun c3_job {} c3_env).spawned.length = 2
    ∧ ((workerRun c3_job {} c3_env).spawned.head?.getD []).getLast? = some ("/dev/null")
    ∧ ((workerRun c3_job {} c3_env).spawned.getLast?.getD []).getLast? = some ("/out/movie.mp4")
    ∧ (workerRun c3_job {} c3_env).passlogOnDisk = true
    ∧ (workerRun c3_job {} c3_env).success = false
    ∧ (workerRun c3_job {} c3_env).message = ("Error: " : String) ++ nameErrorSpeedStrMsg
    ∧ (workerRun c3_job {} c3_env_fail).spawned.length = 1
    ∧ (workerRun c3_job {} c3_env_fail).passlogOnDisk = true := by
  decide

/-- C4: when the encoder exits with code 1 after running past the startup
check, the completion message is the generic exit-code text, not the last
diagnostic line: by completion time the reader thread has drained stderr,
so the read at line 495 returns nothing and the classification at lines 497
to 502 never sees the Error while decoding line, although that
classification, given the text, would have produced exactly that line. -/
theorem failure_message_loses_diagnostic :
    (workerRun c4_job {} c4_env).success = false
    ∧ (workerRun c4_job {} c4_env).message = "Conversion failed with exit code 1"
    ∧ strEndsWith (workerRun c4_job {} c4_env).message ("Error while decoding") = false
    ∧ classifyFailure 1 (String.intercalate ("\n") c4_env.stderr1)
        = strTake ("Error while decoding") 200 := by
  decide

/-- C5: with exit code 0 and a 512-byte (or missing) output, the completion
event does report success false, but its message is the NameError text of
the final-progress emission at lines 464 to 467, not the intended output
diagnosis: the existence and minimum-size checks at lines 469 to 481 sit
after that emission and are unreachable, though as written they would
produce exactly the claimed messages. -/
theorem undersized_output_check_unreachable :
    (workerRun c4_job {} c5_env).success = false
    ∧ (workerRun c4_job {} c5_env).message = ("Error: " : String) ++ nameErrorSpeedStrMsg
    ∧ strContainsSub (workerRun c4_job {} c5_env).message ("too small") = false
    ∧ (workerRun c4_job {} c5_env_missing).success = false
    ∧ strContainsSub (workerRun c4_job {} c5_env_missing).message ("not found") = false
    ∧ finalizeSuccess ("/out/a.mp3") true 512 false true true ("")
        = (false, ("Output file is too small (512 bytes) - conversion may have failed" : String),
           "/out/a.mp3")
    ∧ finalizeSuccess ("/out/a.mp3") false 512 false true true ("")
        = (false, ("Conversion completed but output file not found: /out/a.mp3" : String), "") := by
  decide

/-- A prefix test against a longer pattern implies one against its head. -/
lemma charsPrefix_one {a : Char} {rest l : List Char}
    (h : charsPrefix (a :: rest) l = true) : charsPrefix [a] l = true := by
  cases l with
  | nil => simp [charsPrefix] at h
  | cons b bs =>
    simp [charsPrefix] at h ⊢
    exact h.1

/-- expanduser leaves any path that does not start with a tilde unchanged. -/
lemma expanduser_id (home p : String) (h : strStartsWithP p ("~") = false) :
    expanduser home p = p := by
  unfold expanduser
  split
  next heq => exact absurd h (by subst heq; decide)
  next =>
    split
    next hpre =>
      exfalso
      have hd : ("~/" : String).data = '~' :: ['/'] := rfl
      have h1 : charsPrefix ('~' :: ['/']) p.data = true := by
        have := hpre
        unfold strStartsWithP at this
        rwa [hd] at this
      have h2 : charsPrefix ['~'] p.data = true := charsPrefix_one h1
      have h3 : charsPrefix ['~'] p.data = false := by
        have := h
        unfold strStartsWithP at this
        have hd1 : ("~" : String).data = ['~'] := rfl
        rwa [hd1] at this
      rw [h2] at h3
      exact absurd h3 (by decide)
    next => rfl

/-- C8: the computed destination path is the (tilde-expanded) destination
directory joined with the base name of the source, extension stripped, plus
the extension looked up from the target format; a format absent from the
table falls back to a dot followed by the format string itself. -/
theorem out_path_formula (home dst_dir src fmt : String) :
    out_path home dst_dir src fmt
      = joinPath (expanduser home dst_dir)
          ((splitext (posixBasename src)).1
            ++ ((lookupStr ext_map (strLower fmt)).getD (("." : String) ++ fmt)))
    ∧ (strStartsWithP dst_dir ("~") = false →
        out_path home dst_dir src fmt
          = joinPath dst_dir
              ((splitext (posixBasename src)).1
                ++ ((lookupStr ext_map (strLower fmt)).getD (("." : String) ++ fmt))))
    ∧ (lookupStr ext_map (strLower fmt) = none →
        out_path home dst_dir src fmt
          = joinPath (expanduser home dst_dir)
              ((splitext (posixBasename src)).1 ++ (("." : String) ++ fmt))) := by
  refine ⟨rfl, ?_, ?_⟩
  · intro h
    unfold out_path
    rw [expanduser_id home dst_dir h]
  · intro h
    unfold out_path
    rw [h]
    rfl

/-- C8 witness: concrete destination for an unknown target format. -/
theorem out_path_formula_witness :
    out_path ("/home/u") ("/out") ("/in/a.wav") ("xyz")
      = joinPath ("/out")
          ((splitext (posixBasename ("/in/a.wav"))).1
            ++ ((lookupStr ext_map (strLower ("xyz"))).getD
                  (("." : String) ++ ("xyz" : String)))) :=
  (out_path_formula ("/home/u") ("/out") ("/in/a.wav") ("xyz")).2.1 (by decide)

/-- C7: under duplicate policy skip, a worker whose computed destination
already exists emits an immediate success completion with the skip message
and the destination path, and starts no encoder process. -/
theorem skip_policy_immediate_success (j : Job) (s : Settings) (e : Env)
    (hpol : s.on_exists = some ("skip"))
    (hsrc : e.fs.contains j.src = true)
    (hdst : e.fs.contains (out_path e.home j.dst_dir j.src j.format) = true) :
    workerRun j s e
      = ⟨true, "Skipped (file exists)",
         out_path e.home j.dst_dir j.src j.format, [], false⟩ := by
  simp only [workerRun, hpol, Option.getD_some, hsrc, hdst]
  simp

/-- C7 witness: the skip scenario at a concrete job and filesystem. -/
theorem skip_policy_immediate_success_witness :
    workerRun c4_job { on_exists := some ("skip") } c7_env
      = ⟨true, "Skipped (file exists)",
         out_path c7_env.home c4_job.dst_dir c4_job.src c4_job.format, [], false⟩ :=
  skip_policy_immediate_success c4_job { on_exists := some ("skip") } c7_env
    rfl (by decide) (by decide)

/-- The admission loop never grows the active list beyond the bound. -/
lemma processQueueAux_length (s : Settings) (maxP : Nat) :
    ∀ (q : List Job) (ws : List (Nat × Job)) (wid : Nat), ws.length ≤ maxP →
      (processQueueAux s maxP ws wid q).1.length ≤ maxP := by
  intro q
  induction q with
  | nil => intro ws wid h; simpa [processQueueAux] using h
  | cons jb rest ih =>
    intro ws wid h
    simp only [processQueueAux]
    split
    next hlt =>
      exact ih (ws ++ [(wid, setThreads s jb)]) (wid + 1) (by simp; omega)
    next => simpa using h

/-- The admission loop does nothing once the active list is at or above the
bound: a pending job is admitted only below it. -/
lemma processQueueAux_stop (s : Settings) (maxP : Nat) (q : List Job)
    (ws : List (Nat × Job)) (wid : Nat) (h : maxP ≤ ws.length) :
    processQueueAux s maxP ws wid q = (ws, wid, q) := by
  cases q with
  | nil => rfl
  | cons jb rest =>
    simp only [processQueueAux]
    split
    next hlt => omega
    next => rfl

/-- Every orchestrator step preserves the concurrency bound, the bound
value itself and the settings snapshot. -/
lemma runEvents_bound (evs : List OrchEvent) :
    ∀ st : OrchState, st.workers.length ≤ st.max_parallel →
      (runEvents evs st).workers.length ≤ (runEvents evs st).max_parallel
      ∧ (runEvents evs st).max_parallel = st.max_parallel
      ∧ (runEvents evs st).settings = st.settings := by
  induction evs with
  | nil => intro st h; exact ⟨h, rfl, rfl⟩
  | cons ev evs ih =>
    intro st h
    have hstep : (orchStep st ev).workers.length ≤ (orchStep st ev).max_parallel
        ∧ (orchStep st ev).max_parallel = st.max_parallel
        ∧ (orchStep st ev).settings = st.settings := by
      cases ev with
      | enq jobs =>
        refine ⟨?_, rfl, rfl⟩
        exact processQueueAux_length st.settings st.max_parallel _ _ _ h
      | done wid =>
        refine ⟨?_, rfl, rfl⟩
        refine processQueueAux_length st.settings st.max_parallel _ _ _ ?_
        calc (st.workers.filter (fun p => p.1 ≠ wid)).length
            ≤ st.workers.length := List.length_filter_le _ _
          _ ≤ st.max_parallel := h
    have hre : runEvents (ev :: evs) st = runEvents evs (orchStep st ev) := rfl
    have := ih (orchStep st ev) hstep.1
    rw [hre]
    exact ⟨this.1, this.2.1.trans hstep.2.1, this.2.2.trans hstep.2.2⟩

/-- C1: for every submission sequence and every completion order, the
number of active workers never exceeds max_parallel (part 1); admission
does nothing at or above the bound (part 2); and a completion that frees
exactly one slot of a saturated orchestrator admits precisely the head of
the FIFO pending queue, with the next worker id and the per-format thread
count applied (part 3). -/
theorem orchestrator_respects_max_parallel :
    (∀ (s : Settings) (maxP : Nat) (evs : List OrchEvent),
      (runEvents evs (initState s maxP)).workers.length ≤ maxP)
    ∧ (∀ st : OrchState, st.max_parallel ≤ st.workers.length → processQueue st = st)
    ∧ (∀ (st : OrchState) (wid : Nat) (jb : Job) (rest : List Job),
        (st.workers.filter (fun p => p.1 ≠ wid)).length + 1 = st.max_parallel →
        st.job_queue = jb :: rest →
        (onWorkerDone wid st).workers
          = st.workers.filter (fun p => p.1 ≠ wid)
            ++ [(st.next_wid, setThreads st.settings jb)]
        ∧ (onWorkerDone wid st).job_queue = rest
        ∧ (onWorkerDone wid st).next_wid = st.next_wid + 1) := by
  refine ⟨?_, ?_, ?_⟩
  · intro s maxP evs
    have h := runEvents_bound evs (initState s maxP) (by simp [initState])
    have hmax : (runEvents evs (initState s maxP)).max_parallel = maxP := h.2.1
    calc (runEvents evs (initState s maxP)).workers.length
        ≤ (runEvents evs (initState s maxP)).max_parallel := h.1
      _ = maxP := hmax
  · intro st h
    unfold processQueue
    rw [processQueueAux_stop st.settings st.max_parallel st.job_queue st.workers st.next_wid h]
  · intro st wid jb rest hfree hq
    unfold onWorkerDone processQueue
    simp only [hq]
    simp only [processQueueAux]
    have hlt : (st.workers.filter (fun p => p.1 ≠ wid)).length < st.max_parallel := by omega
    rw [if_pos hlt]
    rw [processQueueAux_stop _ _ _ _ _
      (by simp only [List.length_append, List.length_cons, List.length_nil]; omega)]
    exact ⟨rfl, rfl, rfl⟩

/-- C1 witness: a saturated one-slot orchestrator; completing worker 1
admits exactly the pending head with id 2. -/
theorem orchestrator_respects_max_parallel_witness :
    (runEvents [OrchEvent.enq [c1_job, c1_job2, c1_job]] (initState {} 2)).workers.length ≤ 2
    ∧ processQueue c1_state = c1_state
    ∧ (onWorkerDone 1 c1_state).workers = [] ++ [(2, setThreads c1_state.settings c1_job2)]
    ∧ (onWorkerDone 1 c1_state).job_queue = [] := by
  refine ⟨orchestrator_respects_max_parallel.1 {} 2 _,
    orchestrator_respects_max_parallel.2.1 c1_state (by decide), ?_⟩
  have h := orchestrator_respects_max_parallel.2.2 c1_state 1 c1_job2 [] (by decide) (by decide)
  exact ⟨by rw [h.1]; decide, h.2.1⟩

/-- A candidate the filesystem does not contain ends the rename loop at
once. -/
lemma renameLoop_free (fs : List String) (base ext dst : String) (counter fuel : Nat)
    (h : fs.contains dst = false) :
    renameLoop fs base ext dst counter fuel = dst := by
  cases fuel with
  | zero => rfl
  | succ f => simp only [renameLoop, h]; rfl

/-- Behaviour of the rename while-loop: started at an existing candidate,
with enough fuel to reach a free counter, it returns the first free
candidate at or after the starting counter. -/
lemma renameLoop_spec (fs : List String) (base ext : String) :
    ∀ (fuel : Nat) (dst : String) (counter : Nat),
      fs.contains dst = true →
      (∃ k, k < fuel ∧ fs.contains (mkRenamed base (counter + k) ext) = false) →
      ∃ n, counter ≤ n
        ∧ renameLoop fs base ext dst counter fuel = mkRenamed base n ext
        ∧ fs.contains (mkRenamed base n ext) = false
        ∧ ∀ m, counter ≤ m → m < n → fs.contains (mkRenamed base m ext) = true := by
  intro fuel
  induction fuel with
  | zero =>
    intro dst counter _ hfree
    obtain ⟨k, hk, _⟩ := hfree
    omega
  | succ f ih =>
    intro dst counter hdst hfree
    simp only [renameLoop, hdst]
    by_cases hc : fs.contains (mkRenamed base counter ext) = true
    · obtain ⟨k, hk, hkfree⟩ := hfree
      have hkpos : k ≠ 0 := by
        intro h0
        rw [h0, Nat.add_zero] at hkfree
        rw [hc] at hkfree
        exact absurd hkfree (by decide)
      obtain ⟨k', rfl⟩ : ∃ k', k = k' + 1 := ⟨k - 1, by omega⟩
      have hfree' : ∃ k2, k2 < f ∧
          fs.contains (mkRenamed base (counter + 1 + k2) ext) = false :=
        ⟨k', by omega, by
          have : counter + 1 + k' = counter + (k' + 1) := by omega
          rw [this]; exact hkfree⟩
      obtain ⟨n, hn1, hn2, hn3, hn4⟩ := ih (mkRenamed base counter ext) (counter + 1) hc hfree'
      refine ⟨n, by omega, ?_, hn3, ?_⟩
      · simp [hn2]
      · intro m hm1 hm2
        rcases Nat.eq_or_lt_of_le hm1 with heq | hlt
        · rw [← heq]; exact hc
        · exact hn4 m hlt hm2
    · have hcf : fs.contains (mkRenamed base counter ext) = false :=
        Bool.eq_false_iff.mpr hc
      refine ⟨counter, Nat.le_refl _, ?_, hcf, ?_⟩
      · exact renameLoop_free fs base ext (mkRenamed base counter ext) (counter + 1) f hcf
      · intro m hm1 hm2; omega

/-- C6: under duplicate policy rename, a destination whose file exists
resolves to the candidate with a parenthesized counter appended before the
extension, with the smallest counter whose candidate does not exist; in
particular with out.mp3 and out (1).mp3 both present the resolved path is
out (2).mp3. The existence hypothesis (some candidate within the size of
the finite filesystem is free) reflects that the filesystem is finite while
the candidates are pairwise distinct. -/
theorem rename_appends_least_free_counter :
    (∀ (fs : List String) (dst : String),
      fs.contains dst = true →
      (∃ n, 0 < n ∧ n ≤ fs.length + 1
        ∧ fs.contains (mkRenamed (splitext dst).1 n (splitext dst).2) = false) →
      ∃ n, 0 < n
        ∧ renameDst fs dst = mkRenamed (splitext dst).1 n (splitext dst).2
        ∧ fs.contains (mkRenamed (splitext dst).1 n (splitext dst).2) = false
        ∧ ∀ m, 0 < m → m < n →
            fs.contains (mkRenamed (splitext dst).1 m (splitext dst).2) = true)
    ∧ resolveDst ["/out/out.mp3", "/out/out (1).mp3"] ("rename") ("/out/out.mp3")
        = "/out/out (2).mp3" := by
  constructor
  · intro fs dst hdst hfree
    obtain ⟨n0, hn0pos, hn0le, hn0free⟩ := hfree
    have hfuel : ∃ k, k < fs.length + 1 ∧
        fs.contains (mkRenamed (splitext dst).1 (1 + k) (splitext dst).2) = false := by
      refine ⟨n0 - 1, by omega, ?_⟩
      have : 1 + (n0 - 1) = n0 := by omega
      rw [this]; exact hn0free
    obtain ⟨n, hn1, hn2, hn3, hn4⟩ :=
      renameLoop_spec fs (splitext dst).1 (splitext dst).2 (fs.length + 1) dst 1 hdst hfuel
    exact ⟨n, by omega, hn2, hn3, fun m hm1 hm2 => hn4 m hm1 hm2⟩
  · decide

/-- C6 witness: with out.mp3 and out (1).mp3 existing, the least free
counter is 2 and the general theorem instantiates to it. -/
theorem rename_appends_least_free_counter_witness :
    ∃ n, 0 < n
      ∧ renameDst ["/out/out.mp3", "/out/out (1).mp3"] ("/out/out.mp3")
          = mkRenamed (splitext ("/out/out.mp3")).1 n (splitext ("/out/out.mp3")).2
      ∧ List.contains ["/out/out.mp3", "/out/out (1).mp3"]
          (mkRenamed (splitext ("/out/out.mp3")).1 n (splitext ("/out/out.mp3")).2) = false
      ∧ ∀ m, 0 < m → m < n →
          List.contains ["/out/out.mp3", "/out/out (1).mp3"]
            (mkRenamed (splitext ("/out/out.mp3")).1 m (splitext ("/out/out.mp3")).2) = true :=
  rename_appends_least_free_counter.1 ["/out/out.mp3", "/out/out (1).mp3"] ("/out/out.mp3")
    (by decide) ⟨2, by decide⟩

/-- The clamped percentage map is monotone for a positive duration. -/
lemma progress_map_mono (d : ℚ) (hd : 0 < d) {a b : ℚ} (hab : a ≤ b) :
    min 99 (a / d * 100) ≤ min 99 (b / d * 100) := by
  refine min_le_min (le_refl _) ?_
  have h1 : a / d ≤ b / d := by gcongr
  linarith

/-- With a latched positive duration, the parsed percentages are exactly
the clamped percentage map over the time positions. -/
lemma parsedAux_pos (d : ℚ) (hd : 0 < d) :
    ∀ ls : List StderrLine,
      parsedAux (some d) ls = (timesOf ls).map (fun t => min 99 (t / d * 100)) := by
  intro ls
  induction ls with
  | nil => simp [parsedAux, timesOf]
  | cons l ls ih =>
    have hne : ¬(d = 0) := ne_of_gt hd
    cases ht : l.timeMatch with
    | none => simp [parsedAux, timesOf, List.filterMap_cons, ht, ih]
    | some t => simp [parsedAux, timesOf, List.filterMap_cons, ht, ih, hne, hd]

/-- With a latched nonpositive duration nothing is ever emitted. -/
lemma parsedAux_nonpos (d : ℚ) (hd : d ≤ 0) :
    ∀ ls : List StderrLine, parsedAux (some d) ls = [] := by
  intro ls
  induction ls with
  | nil => simp [parsedAux]
  | cons l ls ih =>
    cases ht : l.timeMatch with
    | none => simp [parsedAux, ht, ih]
    | some t =>
      by_cases hz : d = 0
      · subst hz
        simp [parsedAux, ht, ih]
      · have hnlt : ¬(0 < d) := by
          intro hlt
          exact absurd (lt_of_le_of_lt hd hlt) (lt_irrefl d)
        simp [parsedAux, ht, ih, hz, hnlt]

/-- If the time positions of the stream are non-decreasing, so are the
parsed percentages. -/
lemma parsedProgress_mono :
    ∀ ls : List StderrLine, List.Chain' (· ≤ ·) (timesOf ls) →
      List.Chain' (· ≤ ·) (parsedProgressEvents ls) := by
  intro ls
  induction ls with
  | nil => intro _; simp [parsedProgressEvents, parsedAux]
  | cons l ls ih =>
    intro h
    have htail : List.Chain' (· ≤ ·) (timesOf ls) := by
      cases ht : l.timeMatch with
      | none => simpa [timesOf, List.filterMap_cons, ht] using h
      | some t =>
        have : timesOf (l :: ls) = toSecs t :: timesOf ls := by
          simp [timesOf, List.filterMap_cons, ht]
        rw [this] at h
        exact h.tail
    cases hdm : l.durationMatch with
    | none =>
      have hred : parsedProgressEvents (l :: ls) = parsedProgressEvents ls := by
        cases ht : l.timeMatch with
        | none => simp [parsedProgressEvents, parsedAux, hdm, ht]
        | some t => simp [parsedProgressEvents, parsedAux, hdm, ht]
      rw [hred]
      exact ih htail
    | some g =>
      rcases le_or_lt (toSecs g) 0 with hle | hpos
      · have hred : parsedProgressEvents (l :: ls) = parsedAux (some (toSecs g)) ls := by
          cases ht : l.timeMatch with
          | none => simp [parsedProgressEvents, parsedAux, hdm, ht]
          | some t =>
            by_cases hz : toSecs g = 0
            · simp [parsedProgressEvents, parsedAux, hdm, ht, hz]
            · have hnlt : ¬(0 < toSecs g) := not_lt.mpr hle
              simp [parsedProgressEvents, parsedAux, hdm, ht, hz, hnlt]
        rw [hred, parsedAux_nonpos (toSecs g) hle ls]
        exact List.chain'_nil
      · have hne : ¬(toSecs g = 0) := ne_of_gt hpos
        cases ht : l.timeMatch with
        | none =>
          have hred : parsedProgressEvents (l :: ls) = parsedAux (some (toSecs g)) ls := by
            simp [parsedProgressEvents, parsedAux, hdm, ht]
          rw [hred, parsedAux_pos (toSecs g) hpos ls]
          exact List.chain'_map_of_chain' _ (fun a b hab => progress_map_mono _ hpos hab) htail
        | some t =>
          have hred : parsedProgressEvents (l :: ls)
              = (timesOf (l :: ls)).map (fun x => min 99 (x / toSecs g * 100)) := by
            have h1 : timesOf (l :: ls) = toSecs t :: timesOf ls := by
              simp [timesOf, List.filterMap_cons, ht]
            rw [h1]
            simp [parsedProgressEvents, parsedAux, hdm, ht, hne, hpos,
              parsedAux_pos (toSecs g) hpos ls]
          rw [hred]
          exact List.chain'_map_of_chain' _ (fun a b hab => progress_map_mono _ hpos hab) h

/-- Every parsed percentage with a latched duration is at most 99. -/
lemma parsedAux_some_le_99 :
    ∀ (ls : List StderrLine) (d : ℚ) (x : ℚ), x ∈ parsedAux (some d) ls → x ≤ 99 := by
  intro ls
  induction ls with
  | nil => intro d x hx; simp [parsedAux] at hx
  | cons l ls ih =>
    intro d x hx
    cases ht : l.timeMatch with
    | none =>
      simp only [parsedAux, ht] at hx
      exact ih d x hx
    | some t =>
      by_cases hz : d = 0
      · subst hz
        simp only [parsedAux, ht] at hx
        rw [if_neg (by simp)] at hx
        exact ih 0 x hx
      · by_cases hp : 0 < d
        · simp only [parsedAux, ht] at hx
          rw [if_pos (by simp [hz]), if_pos (by simp [hp])] at hx
          rcases List.mem_cons.mp hx with rfl | hx
          · exact min_le_left _ _
          · exact ih d x hx
        · simp only [parsedAux, ht] at hx
          rw [if_pos (by simp [hz]), if_neg (by simp [hp])] at hx
          exact ih d x hx

/-- Every parsed percentage is clamped to at most 99. -/
lemma parsedAux_le_99 :
    ∀ (ls : List StderrLine) (x : ℚ), x ∈ parsedAux none ls → x ≤ 99 := by
  intro ls
  induction ls with
  | nil => intro x hx; simp [parsedAux] at hx
  | cons l ls ih =>
    intro x hx
    cases hdm : l.durationMatch with
    | none =>
      cases ht : l.timeMatch with
      | none =>
        simp only [parsedAux, hdm, ht, Option.map_none'] at hx
        exact ih x hx
      | some t =>
        simp only [parsedAux, hdm, ht, Option.map_none'] at hx
        exact ih x hx
    | some g =>
      cases ht : l.timeMatch with
      | none =>
        simp only [parsedAux, hdm, ht, Option.map_some'] at hx
        exact parsedAux_some_le_99 ls (toSecs g) x hx
      | some t =>
        by_cases hz : toSecs g = 0
        · simp only [parsedAux, hdm, ht, Option.map_some'] at hx
          rw [if_neg (by simp [hz])] at hx
          exact parsedAux_some_le_99 ls (toSecs g) x hx
        · by_cases hp : 0 < toSecs g
          · simp only [parsedAux, hdm, ht, Option.map_some'] at hx
            rw [if_pos (by simp [hz]), if_pos (by simp [hp])] at hx
            rcases List.mem_cons.mp hx with rfl | hx
            · exact min_le_left _ _
            · exact parsedAux_some_le_99 ls (toSecs g) x hx
          · simp only [parsedAux, hdm, ht, Option.map_some'] at hx
            rw [if_pos (by simp [hz]), if_neg (by simp [hp])] at hx
            exact parsedAux_some_le_99 ls (toSecs g) x hx

/-- Members of an interleaving come from one of the two sources. -/
lemma interleave_mem {l r o : List ℚ} (h : Interleave l r o) :
    ∀ x ∈ o, x ∈ l ∨ x ∈ r := by
  induction h with
  | nil => intro x hx; simp at hx
  | left _ ih =>
    intro x hx
    rcases List.mem_cons.mp hx with rfl | hx
    · exact Or.inl (List.mem_cons_self _ _)
    · rcases ih x hx with h1 | h2
      · exact Or.inl (List.mem_cons_of_mem _ h1)
      · exact Or.inr h2
  | right _ ih =>
    intro x hx
    rcases List.mem_cons.mp hx with rfl | hx
    · exact Or.inr (List.mem_cons_self _ _)
    · rcases ih x hx with h1 | h2
      · exact Or.inl h1
      · exact Or.inr (List.mem_cons_of_mem _ h2)

/-- C2 counterexample: the emitted progress sequence of a single pass is
not monotonically non-decreasing. The run loop at lines 316 to 326 emits a
0.1 percent heartbeat every five seconds unconditionally, interleaved with
the percentages the reader thread parses, so after a parsed 50 percent a
heartbeat emits 0.1: the concrete emission sequence 50 then 0.1 arises from
the stream below and is decreasing. -/
theorem progress_interleaving_not_monotone :
    Interleave (parsedProgressEvents c2_lines) [heartbeatPct] [(50 : ℚ), heartbeatPct]
    ∧ ¬ List.Chain' (· ≤ ·) [(50 : ℚ), heartbeatPct] := by
  constructor
  · have h : parsedProgressEvents c2_lines = [(50 : ℚ)] := by
      norm_num [c2_lines, parsedProgressEvents, parsedAux, toSecs]
    rw [h]
    exact Interleave.left (Interleave.right Interleave.nil)
  · norm_num [List.chain'_cons, heartbeatPct]

/-- C2 amended: restricted to the percentages parsed from the diagnostic
stream, monotonicity holds whenever the reported time positions are
non-decreasing (the parsed percentage is a monotone clamped map of the
position for the latched duration); and no progress event of a pass,
parsed or heartbeat, ever reports 100 or more before the final
completion-time emission (parsed values are clamped to 99, heartbeats are
0.1). -/
theorem progress_parsed_monotone_and_below_100 :
    (∀ lines : List StderrLine, List.Chain' (· ≤ ·) (timesOf lines) →
      List.Chain' (· ≤ ·) (parsedProgressEvents lines))
    ∧ (∀ (lines : List StderrLine) (k : Nat) (out : List ℚ),
      Interleave (parsedProgressEvents lines) (List.replicate k heartbeatPct) out →
      ∀ x ∈ out, x < 100) := by
  constructor
  · exact parsedProgress_mono
  · intro lines k out hint x hx
    rcases interleave_mem hint x hx with h1 | h2
    · have := parsedAux_le_99 lines x h1
      linarith
    · have hx2 := List.eq_of_mem_replicate h2
      rw [hx2]
      norm_num [heartbeatPct]

/-- C2 witness: a monotone stream parses to a monotone sequence, and its
members stay below 100. -/
theorem progress_parsed_monotone_and_below_100_witness :
    List.Chain' (· ≤ ·) (parsedProgressEvents c2w_lines) ∧ (20 : ℚ) < 100 := by
  have h : parsedProgressEvents c2w_lines = [(20 : ℚ), 50] := by
    norm_num [c2w_lines, parsedProgressEvents, parsedAux, toSecs]
  constructor
  · exact progress_parsed_monotone_and_below_100.1 c2w_lines
      (by norm_num [c2w_lines, timesOf, toSecs, List.chain'_cons, List.filterMap_cons])
  · exact progress_parsed_monotone_and_below_100.2 c2w_lines 0 [(20 : ℚ), 50]
      (by rw [h]; exact Interleave.left (Interleave.left Interleave.nil)) 20
      (by norm_num)

/-- Workers present after the admission loop either were already active or
carry the thread-count-adjusted copy of a job that was pending. -/
lemma processQueueAux_workers_from (s : Settings) (maxP : Nat) :
    ∀ (q : List Job) (ws : List (Nat × Job)) (wid : Nat) (p : Nat × Job),
      p ∈ (processQueueAux s maxP ws wid q).1 →
      p ∈ ws ∨ ∃ jb, jb ∈ q ∧ p.2 = setThreads s jb := by
  intro q
  induction q with
  | nil => intro ws wid p hp; exact Or.inl (by simpa [processQueueAux] using hp)
  | cons jb rest ih =>
    intro ws wid p hp
    simp only [processQueueAux] at hp
    by_cases hlt : ws.length < maxP
    · rw [if_pos hlt] at hp
      rcases ih (ws ++ [(wid, setThreads s jb)]) (wid + 1) p hp with h1 | h2
      · rcases List.mem_append.mp h1 with h3 | h4
        · exact Or.inl h3
        · have : p = (wid, setThreads s jb) := by simpa using h4
          exact Or.inr ⟨jb, List.mem_cons_self _ _, by rw [this]⟩
      · obtain ⟨jb2, hjb2, hp2⟩ := h2
        exact Or.inr ⟨jb2, List.mem_cons_of_mem _ hjb2, hp2⟩
    · rw [if_neg hlt] at hp
      exact Or.inl hp

/-- The queue left by the admission loop is drawn from the original queue. -/
lemma processQueueAux_queue_from (s : Settings) (maxP : Nat) :
    ∀ (q : List Job) (ws : List (Nat × Job)) (wid : Nat) (jb : Job),
      jb ∈ (processQueueAux s maxP ws wid q).2.2 → jb ∈ q := by
  intro q
  induction q with
  | nil => intro ws wid jb hjb; simp [processQueueAux] at hjb
  | cons jb0 rest ih =>
    intro ws wid jb hjb
    simp only [processQueueAux] at hjb
    by_cases hlt : ws.length < maxP
    · rw [if_pos hlt] at hjb
      exact List.mem_cons_of_mem _ (ih _ _ _ hjb)
    · rw [if_neg hlt] at hjb
      exact hjb

/-- Orchestrator steps never touch the settings snapshot. -/
lemma orchStep_settings (st : OrchState) (ev : OrchEvent) :
    (orchStep st ev).settings = st.settings := by
  cases ev <;> rfl

/-- Provenance of active workers: across any run, every active worker holds
the thread-count-adjusted copy of a job that was either initially present
or submitted by some event. -/
lemma runEvents_provenance :
    ∀ (evs : List OrchEvent) (pool : Job → Prop) (st : OrchState),
      (∀ jb ∈ st.job_queue, pool jb) →
      (∀ p ∈ st.workers, ∃ j0, pool j0 ∧ p.2 = setThreads st.settings j0) →
      ∀ p ∈ (runEvents evs st).workers,
        ∃ j0, (pool j0 ∨ j0 ∈ enqueuedJobs evs) ∧ p.2 = setThreads st.settings j0 := by
  intro evs
  induction evs with
  | nil =>
    intro pool st _ hw p hp
    obtain ⟨j0, h1, h2⟩ := hw p hp
    exact ⟨j0, Or.inl h1, h2⟩
  | cons ev evs ih =>
    intro pool st hq hw p hp
    have hre : runEvents (ev :: evs) st = runEvents evs (orchStep st ev) := rfl
    rw [hre] at hp
    cases ev with
    | enq jobs =>
      have hq2 : ∀ jb ∈ (orchStep st (OrchEvent.enq jobs)).job_queue,
          pool jb ∨ jb ∈ jobs := by
        intro jb hjb
        have := processQueueAux_queue_from st.settings st.max_parallel
          (st.job_queue ++ jobs) st.workers st.next_wid jb hjb
        rcases List.mem_append.mp this with h1 | h2
        · exact Or.inl (hq jb h1)
        · exact Or.inr h2
      have hw2 : ∀ p ∈ (orchStep st (OrchEvent.enq jobs)).workers,
          ∃ j0, (pool j0 ∨ j0 ∈ jobs)
            ∧ p.2 = setThreads (orchStep st (OrchEvent.enq jobs)).settings j0 := by
        intro p hp2
        rw [orchStep_settings]
        rcases processQueueAux_workers_from st.settings st.max_parallel
          (st.job_queue ++ jobs) st.workers st.next_wid p hp2 with h1 | h2
        · obtain ⟨j0, h3, h4⟩ := hw p h1
          exact ⟨j0, Or.inl h3, h4⟩
        · obtain ⟨jb, hjb, hpj⟩ := h2
          rcases List.mem_append.mp hjb with h5 | h6
          · exact ⟨jb, Or.inl (hq jb h5), hpj⟩
          · exact ⟨jb, Or.inr h6, hpj⟩
      obtain ⟨j0, h1, h2⟩ := ih (fun j => pool j ∨ j ∈ jobs)
        (orchStep st (OrchEvent.enq jobs)) hq2 hw2 p hp
      rw [orchStep_settings] at h2
      refine ⟨j0, ?_, h2⟩
      rcases h1 with (h3 | h4) | h5
      · exact Or.inl h3
      · exact Or.inr (by simp [enqueuedJobs, List.mem_append]; exact Or.inl h4)
      · exact Or.inr (by simp [enqueuedJobs, List.mem_append]; exact Or.inr h5)
    | done wid =>
      have hq2 : ∀ jb ∈ (orchStep st (OrchEvent.done wid)).job_queue, pool jb := by
        intro jb hjb
        exact hq jb (processQueueAux_queue_from st.settings st.max_parallel
          st.job_queue _ st.next_wid jb hjb)
      have hw2 : ∀ p ∈ (orchStep st (OrchEvent.done wid)).workers,
          ∃ j0, pool j0
            ∧ p.2 = setThreads (orchStep st (OrchEvent.done wid)).settings j0 := by
        intro p hp2
        rw [orchStep_settings]
        rcases processQueueAux_workers_from st.settings st.max_parallel
          st.job_queue (st.workers.filter (fun x => x.1 ≠ wid)) st.next_wid p hp2
          with h1 | h2
        · exact hw p (List.mem_filter.mp h1).1
        · obtain ⟨jb, hjb, hpj⟩ := h2
          exact ⟨jb, hq jb hjb, hpj⟩
      obtain ⟨j0, h1, h2⟩ := ih pool (orchStep st (OrchEvent.done wid)) hq2 hw2 p hp
      rw [orchStep_settings] at h2
      exact ⟨j0, by simpa [enqueuedJobs] using h1, h2⟩

/-- C9: the orchestration core's only Job mutation is the admission-time
thread count. Part 1: setThreads sets threads to the per-format lookup
(default 1) and leaves every other Job field unchanged. Part 2: across any
run from the initial state, every active worker's job is exactly the
setThreads image of a submitted job, so no other mutation ever occurs
between submission and completion. -/
theorem job_fields_frame_condition :
    (∀ (s : Settings) (j : Job),
      (setThreads s j).threads = (lookupNat s.codec_threads j.format).getD 1
      ∧ (setThreads s j).src = j.src
      ∧ (setThreads s j).dst_dir = j.dst_dir
      ∧ (setThreads s j).format = j.format
      ∧ (setThreads s j).mode = j.mode
      ∧ (setThreads s j).bitrate = j.bitrate
      ∧ (setThreads s j).vbrq = j.vbrq
      ∧ (setThreads s j).sample_rate = j.sample_rate
      ∧ (setThreads s j).channels = j.channels
      ∧ (setThreads s j).meta_title = j.meta_title
      ∧ (setThreads s j).meta_artist = j.meta_artist
      ∧ (setThreads s j).meta_album = j.meta_album
      ∧ (setThreads s j).meta_year = j.meta_year
      ∧ (setThreads s j).meta_genre = j.meta_genre
      ∧ (setThreads s j).meta_track = j.meta_track
      ∧ (setThreads s j).copy_meta = j.copy_meta
      ∧ (setThreads s j).strip_meta = j.strip_meta
      ∧ (setThreads s j).prefer_external_cover = j.prefer_external_cover
      ∧ (setThreads s j).normalize_lufs = j.normalize_lufs
      ∧ (setThreads s j).target_lufs = j.target_lufs
      ∧ (setThreads s j).custom_args = j.custom_args
      ∧ (setThreads s j).video_codec = j.video_codec
      ∧ (setThreads s j).video_bitrate = j.video_bitrate
      ∧ (setThreads s j).video_quality = j.video_quality
      ∧ (setThreads s j).resolution = j.resolution
      ∧ (setThreads s j).fps = j.fps
      ∧ (setThreads s j).extract_audio_only = j.extract_audio_only
      ∧ (setThreads s j).reduce_size = j.reduce_size
      ∧ (setThreads s j).size_reduction_factor = j.size_reduction_factor
      ∧ (setThreads s j).use_hevc = j.use_hevc
      ∧ (setThreads s j).two_pass = j.two_pass
      ∧ (setThreads s j).subtitle_track = j.subtitle_track
      ∧ (setThreads s j).trim_start = j.trim_start
      ∧ (setThreads s j).trim_end = j.trim_end
      ∧ (setThreads s j).fade_in = j.fade_in
      ∧ (setThreads s j).fade_out = j.fade_out
      ∧ (setThreads s j).video_trim_start = j.video_trim_start
      ∧ (setThreads s j).video_trim_end = j.video_trim_end
      ∧ (setThreads s j).crop_x = j.crop_x
      ∧ (setThreads s j).crop_y = j.crop_y
      ∧ (setThreads s j).crop_width = j.crop_width
      ∧ (setThreads s j).crop_height = j.crop_height
      ∧ (setThreads s j).video_quality_preset = j.video_quality_preset
      ∧ (setThreads s j).audio_track = j.audio_track
      ∧ (setThreads s j).delete_original = j.delete_original)
    ∧ (∀ (s : Settings) (maxP : Nat) (evs : List OrchEvent) (p : Nat × Job),
        p ∈ (runEvents evs (initState s maxP)).workers →
        ∃ j0, j0 ∈ enqueuedJobs evs ∧ p.2 = setThreads s j0) := by
  constructor
  · intro s j
    repeat' apply And.intro
    all_goals rfl
  · intro s maxP evs p hp
    obtain ⟨j0, h1, h2⟩ := runEvents_provenance evs (fun _ => False) (initState s maxP)
      (by intro jb hjb; simp [initState] at hjb)
      (by intro q hq; simp [initState] at hq) p hp
    rcases h1 with h3 | h4
    · exact absurd h3 (by simp)
    · exact ⟨j0, h4, h2⟩

/-- C9 witness: a single submitted job appears in the active map exactly as
its thread-count-adjusted copy. -/
theorem job_fields_frame_condition_witness :
    ∃ j0, j0 ∈ enqueuedJobs [OrchEvent.enq [c1_job]]
      ∧ ((1 : Nat), setThreads ({} : Settings) c1_job).2 = setThreads {} j0 :=
  job_fields_frame_condition.2 {} 1 [OrchEvent.enq [c1_job]]
    (1, setThreads {} c1_job) (by decide)

/-- The last element of a list extended by two elements. -/
lemma getLast?_append_two (xs : List String) (x y : String) :
    (xs ++ [x, y]).getLast? = some y := by
  rw [show xs ++ [x, y] = (xs ++ [x]) ++ [y] by simp]
  exact List.getLast?_concat _

/-- The destination is always the last command argument (the -y flag and
the destination close every built command). -/
lemma build_ffmpeg_cmd_last (ffmpeg : String) (fs : List String) (a : BuildArgs) :
    (build_ffmpeg_cmd ffmpeg fs a).getLast? = some a.dst := by
  simp only [build_ffmpeg_cmd]
  exact getLast?_append_two _ _ _

/-- Without the two-pass gate the worker starts at most one encoder
process. -/
lemma spawned_le_one (j : Job) (s : Settings) (e : Env)
    (hgf : (j.two_pass && j.reduce_size && !j.extract_audio_only) = false) :
    (workerRun j s e).spawned.length ≤ 1 := by
  simp only [workerRun, hgf, Bool.false_and]
  split
  · simp
  · split
    · simp
    · split
      · simp
      · split
        · simp
        · split
          · simp
          · split
            · simp_all
            · split <;> simp

/-- C10: the null-sink redirection and a second encoder invocation happen
only when two_pass, reduce_size and not extract_audio_only hold together.
Part 1: a two_pass job with reduce_size unset or extract_audio_only set
(fresh destination, encoder starts) spawns exactly one invocation whose
command ends with the real destination path. Part 2: any run with two or
more invocations had the full gate set. -/
theorem single_pass_gating :
    (∀ (j : Job) (s : Settings) (e : Env),
      e.fs.contains j.src = true →
      e.fs.contains (out_path e.home j.dst_dir j.src j.format) = false →
      e.proc1_starts = true →
      j.two_pass = true →
      (j.reduce_size = false ∨ j.extract_audio_only = true) →
      (workerRun j s e).spawned
        = [build_ffmpeg_cmd e.ffmpeg e.fs
            (buildArgsOfJob j (out_path e.home j.dst_dir j.src j.format))]
      ∧ (build_ffmpeg_cmd e.ffmpeg e.fs
          (buildArgsOfJob j (out_path e.home j.dst_dir j.src j.format))).getLast?
          = some (out_path e.home j.dst_dir j.src j.format))
    ∧ (∀ (j : Job) (s : Settings) (e : Env),
      2 ≤ (workerRun j s e).spawned.length →
      (j.two_pass && j.reduce_size && !j.extract_audio_only) = true) := by
  constructor
  · intro j s e hsrc hdst hstart htp hng
    have hgate : (j.two_pass && j.reduce_size && !j.extract_audio_only) = false := by
      rcases hng with h | h <;> simp [htp, h]
    constructor
    · simp only [workerRun, hsrc, hdst, hstart, resolveDst, hgate, Bool.false_and,
        Bool.not_true, Bool.false_eq_true, if_false]
      split
      · rfl
      · split
        · rfl
        · split <;> rfl
    · exact build_ffmpeg_cmd_last e.ffmpeg e.fs
        (buildArgsOfJob j (out_path e.home j.dst_dir j.src j.format))
  · intro j s e h2
    by_cases hg : (j.two_pass && j.reduce_size && !j.extract_audio_only) = true
    · exact hg
    · have hgf : (j.two_pass && j.reduce_size && !j.extract_audio_only) = false :=
        Bool.eq_false_iff.mpr hg
      have := spawned_le_one j s e hgf
      omega

/-- C10 witness: a two_pass job without reduce_size spawns a single
invocation ending in the real destination path. -/
theorem single_pass_gating_witness :
    (workerRun c10_job {} c10_env).spawned
      = [build_ffmpeg_cmd c10_env.ffmpeg c10_env.fs
          (buildArgsOfJob c10_job
            (out_path c10_env.home c10_job.dst_dir c10_job.src c10_job.format))]
    ∧ (build_ffmpeg_cmd c10_env.ffmpeg c10_env.fs
        (buildArgsOfJob c10_job
          (out_path c10_env.home c10_job.dst_dir c10_job.src c10_job.format))).getLast?
        = some (out_path c10_env.home c10_job.dst_dir c10_job.src c10_job.format) :=
  single_pass_gating.1 c10_job {} c10_env (by decide) (by decide) (by decide) (by decide)
    (Or.inl (by decide))

end HandForge
